import Mathlib

/-!
Shallow embedding of the media-track endpoint implemented in
`src/src/impl/track.cpp` (namespace `rtc::impl`).  Pure values replace the
C++ objects: a packet is a byte list tagged with its kind, the inbound queue
is an explicit structure, and each member function of `Track` becomes a Lean
function on an explicit `TrackState`.  Collaborator code that is not part of
`src/` (the queue template `queue.hpp`, the RTP header accessors of
`rtp.hpp`, and the `Description::Media` helpers) is modelled from the spec,
as marked in the corresponding doc comments.
-/

namespace RtcImpl

/-- Negotiated media direction (spec section 3: direction is one of SendOnly,
RecvOnly, SendRecv, Inactive; the enum itself lives in the description header,
which is not part of src/). -/
inductive Direction where
  | sendOnly
  | recvOnly
  | sendRecv
  | inactive
deriving DecidableEq, Repr

/-- Packet kind, the `Message::type` field read by track.cpp: `Control`
(RTCP) versus data (`Binary`). -/
inductive MsgType where
  | binary
  | control
deriving DecidableEq, Repr

/-- A packet: a byte buffer (bytes as naturals below 256) tagged with its
kind and a DSCP priority marking assigned at send time. -/
structure Message where
  type : MsgType
  data : List Nat
  dscp : Nat
deriving DecidableEq, Repr

/-- Accounted weight of a packet, the size function the Track constructor
passes to its receive queue: `[](const message_ptr &m) { return m->size(); }`. -/
def weight (m : Message) : Nat := m.data.length

/-- Modelled from the spec: BoundedByteQueue (`queue.hpp` is not in src/).
An ordered sequence of pending packets plus a running accumulated-size
counter and a fixed capacity limit (spec section 4.2). -/
structure BoundedByteQueue where
  items : List Message
  amount : Nat
  capacity : Nat
deriving DecidableEq, Repr

/-- Modelled from the spec: `push(item) -> bool` rejects without mutating the
queue when the accumulated size plus the item's weight would exceed the
capacity, else appends and accounts the weight (spec section 4.2). -/
def BoundedByteQueue.push (q : BoundedByteQueue) (m : Message) :
    BoundedByteQueue × Bool :=
  if q.capacity < q.amount + weight m then (q, false)
  else ({ q with items := q.items ++ [m], amount := q.amount + weight m }, true)

/-- Modelled from the spec: `full()` is true when the next push would be
rejected, i.e. the accumulated size has reached the capacity (spec 4.2). -/
def BoundedByteQueue.full (q : BoundedByteQueue) : Bool :=
  decide (q.capacity ≤ q.amount)

/-- Modelled from the spec: current item count (spec 4.2, `size()`). -/
def BoundedByteQueue.size (q : BoundedByteQueue) : Nat := q.items.length

/-- Modelled from the spec: `pop()` removes and returns the front item,
decreasing the accumulated size (spec 4.2). -/
def BoundedByteQueue.pop (q : BoundedByteQueue) :
    Option (Message × BoundedByteQueue) :=
  match q.items with
  | [] => none
  | m :: rest => some (m, { q with items := rest, amount := q.amount - weight m })

/-- Modelled from the spec: `peek()` returns the front item without removal
(spec 4.2). -/
def BoundedByteQueue.peekFront (q : BoundedByteQueue) : Option Message :=
  q.items.head?

/-- A media handler's two transform chains (spec section 6); the handler is a
collaborator consumed through this narrow interface.  The side-channel
"send now" callback the chains receive is not modelled: no claim depends on
the out-of-band sends it performs. -/
structure MediaHandler where
  incomingChain : List Message → List Message
  outgoingChain : List Message → List Message

/-- The transport collaborator: `sendMedia(packet) -> bool` (spec section 6). -/
structure Transport where
  sendMedia : Message → Bool

/-- The default message callback installed by the constructor for send-only
tracks: `messageCallback = [](message_variant) {};` — it discards every
delivered message.  Application-supplied callbacks are outside src/. -/
inductive CallbackModel where
  | discard
deriving DecidableEq, Repr

/-- Running a modelled callback: the discard callback produces no visible
delivery for any message. -/
def runMessageCallback : CallbackModel → Message → List Message
  | .discard, _ => []

/-- Modelled from the spec: `Description::Media` (the description header is
not in src/): a mid string, a direction, a media type string, and an
extension-id table mapping small integer ids to extension URIs. -/
structure Media where
  mid : String
  direction : Direction
  mtype : String
  extMap : List (Nat × String)
deriving DecidableEq, Repr

/-- The well-known stream-identifier extension URI (RFC 8843), as in
`Track::setDescription`. -/
def sdesMidExtUri : String := "urn:ietf:params:rtp-hdrext:sdes:mid"

/-- Modelled from the spec: `Description::Media::findExtId(uri)` returns the
id of the first extension-table entry carrying the given URI, if any. -/
def Media.findExtId (d : Media) (uri : String) : Option Nat :=
  (d.extMap.find? (fun p => p.2 == uri)).map Prod.fst

/-- The valid one-byte-header extension ids, 1..14 (spec section 4.1). -/
def extIds : List Nat := [1, 2, 3, 4, 5, 6, 7, 8, 9, 10, 11, 12, 13, 14]

/-- Whether an extension id is already used in the table. -/
def Media.extIdUsed (d : Media) (k : Nat) : Bool :=
  d.extMap.any (fun p => p.1 == k)

/-- Modelled from the spec: `Description::Media::nextExtId()` allocates the
lowest unused extension id in [1,14] (spec sections 4.1 and 8).  The fallback
0 is never reached when a free id exists. -/
def Media.nextExtId (d : Media) : Nat :=
  (extIds.find? (fun k => ! d.extIdUsed k)).getD 0

/-- Modelled from the spec: `Description::Media::addExtMap` records a new
(id, uri) mapping in the extension table. -/
def Media.addExtMap (d : Media) (k : Nat) (uri : String) : Media :=
  { d with extMap := d.extMap ++ [(k, uri)] }

/-- Error kinds surfaced to callers (spec section 7): `ConfigurationMismatch`
is the `std::logic_error` thrown on a mid mismatch, `TrackClosed` the
`std::runtime_error` thrown on sends through a closed or detached track. -/
inductive TrackError where
  | configurationMismatch
  | trackClosed
deriving DecidableEq, Repr

/-- The mutable state of one `Track` object: the fields of track.cpp that the
claims observe.  Event callbacks are modelled by observable traces: the
closed-event counter counts `triggerClosed` firings, and `incoming` returns
the list of `triggerAvailable` arguments.  The two global log counters are
carried in the state as fields. -/
structure TrackState where
  mMediaDescription : Media
  mSdesMidExtId : Option Nat
  mRecvQueue : BoundedByteQueue
  mIsClosed : Bool
  closedEventCount : Nat
  badDirectionCounter : Nat
  queueFullCounter : Nat
  messageCallback : Option CallbackModel
  mMediaHandler : Option MediaHandler
  mDtlsSrtpTransport : Option Transport

/-- Read accessor `Track::description()`. -/
def description (s : TrackState) : Media := s.mMediaDescription

/-- Read accessor `Track::mid()`. -/
def mid (s : TrackState) : String := s.mMediaDescription.mid

/-- Read accessor `Track::direction()`. -/
def direction (s : TrackState) : Direction := s.mMediaDescription.direction

/-- Read accessor `Track::availableAmount()`. -/
def availableAmount (s : TrackState) : Nat := s.mRecvQueue.amount

/-- `Track::setDescription` (track.cpp lines 57-78): reject a description
whose mid differs from the current one; otherwise look up the sdes:mid
extension id, allocating and recording a fresh one when absent, and store
the description in the same update.  The post-swap handler notification is a
call out to the collaborator and changes no Track state.  On error the state
is returned unchanged together with the error, modelling the throw happening
before any mutation. -/
def setDescription (s : TrackState) (desc : Media) :
    TrackState × Option TrackError :=
  if desc.mid ≠ s.mMediaDescription.mid then (s, some .configurationMismatch)
  else
    match desc.findExtId sdesMidExtUri with
    | some i =>
        ({ s with mSdesMidExtId := some i, mMediaDescription := desc }, none)
    | none =>
        let i := desc.nextExtId
        ({ s with mSdesMidExtId := some i,
                  mMediaDescription := desc.addExtMap i sdesMidExtUri }, none)

/-- `Track::close` (track.cpp lines 80-88): compare-and-set the closed flag,
firing the closed event only on the first transition, then detach the media
handler and reset the registered callbacks. -/
def close (s : TrackState) : TrackState :=
  let s' :=
    if s.mIsClosed then s
    else { s with mIsClosed := true, closedEventCount := s.closedEventCount + 1 }
  { s' with mMediaHandler := none, messageCallback := none }

/-- Modelled from the spec: `IsRtcp` (rtp.cpp, not in src/) — the structural
test for an RTCP packet used by `Track::outgoing` to reclassify packets when
no handler is attached: a buffer of at least 8 bytes whose payload-type field
falls in the RTCP range.  The claims depend only on the test's value, never
on its internals. -/
def IsRtcp (d : List Nat) : Bool :=
  decide (8 ≤ d.length) &&
    (decide (64 ≤ d.getD 1 0 % 128) && decide (d.getD 1 0 % 128 < 96))

/-- `Track::transportSend` (track.cpp lines 203-224, with media support
enabled): require an attached transport (else throw the closed error),
assign the DSCP marking from the media type (46 for audio, 36 otherwise),
and delegate to the transport.  Returns the marked message and the send
result. -/
def transportSend (s : TrackState) (m : Message) :
    Except TrackError (Message × Bool) :=
  match s.mDtlsSrtpTransport with
  | none => .error .trackClosed
  | some t =>
      let m' := { m with dscp := if s.mMediaDescription.mtype == "audio" then 46 else 36 }
      .ok (m', t.sendMedia m')

/-- The send loop of `Track::outgoing` (track.cpp lines 192-194): `ret` is
overwritten by each `transportSend` result, so the returned Bool reflects the
last attempt (false when the batch is empty); a thrown error propagates
immediately. -/
def sendAll (s : TrackState) : List Message → Bool → Except TrackError Bool
  | [], ret => .ok ret
  | m :: rest, _ =>
      match transportSend s m with
      | .error e => .error e
      | .ok (_, r) => sendAll s rest r

/-- The post-gate send path of `Track::outgoing` (track.cpp lines 189-200):
with a handler, run the outbound chain on the one-element batch and send
every resulting packet; without one, send the single packet directly. -/
def outgoingSendPath (s : TrackState) (m : Message) :
    TrackState × Except TrackError Bool :=
  match s.mMediaHandler with
  | some h => (s, sendAll s (h.outgoingChain [m]) false)
  | none =>
      match transportSend s m with
      | .error e => (s, .error e)
      | .ok (_, r) => (s, .ok r)

/-- `Track::outgoing` (track.cpp lines 172-201): throw the closed error if
the track is closed; with no handler attached, reclassify a structurally
RTCP packet as Control; drop a non-Control packet (returning false and
bumping the bad-direction counter) when the direction is RecvOnly or
Inactive; otherwise proceed to the send path. -/
def outgoing (s : TrackState) (msg : Message) :
    TrackState × Except TrackError Bool :=
  if s.mIsClosed then (s, .error .trackClosed)
  else
    let m :=
      if s.mMediaHandler.isNone && IsRtcp msg.data then
        { msg with type := .control }
      else msg
    let dir := s.mMediaDescription.direction
    if (dir == .recvOnly || dir == .inactive) && m.type != .control then
      ({ s with badDirectionCounter := s.badDirectionCounter + 1 }, .ok false)
    else outgoingSendPath s m

/-- The admission loop of `Track::incoming` (track.cpp lines 160-169): for
each packet of the transformed batch, first check `full()` — on the first
full queue bump the full-queue counter and return, abandoning the rest —
else push (the push result is not consulted) and fire the available event
with the queue's item count.  Returns the final queue, the number of
full-queue counter increments and the list of available-event arguments. -/
def admitBatch (q : BoundedByteQueue) : List Message → BoundedByteQueue × Nat × List Nat
  | [] => (q, 0, [])
  | m :: rest =>
      if q.full then (q, 1, [])
      else
        let q' := (q.push m).1
        let r := admitBatch q' rest
        (r.1, r.2.1, q'.size :: r.2.2)

/-- The post-gate part of `Track::incoming` (track.cpp lines 156-169): wrap
the packet as a one-element batch, run the inbound chain when a handler is
attached, then run the admission loop. -/
def incomingAdmit (s : TrackState) (msg : Message) : TrackState × List Nat :=
  let batch :=
    match s.mMediaHandler with
    | none => [msg]
    | some h => h.incomingChain [msg]
  let r := admitBatch s.mRecvQueue batch
  ({ s with mRecvQueue := r.1, queueFullCounter := s.queueFullCounter + r.2.1 },
   r.2.2)

/-- `Track::incoming` (track.cpp lines 145-170): drop a non-Control packet
(bumping the bad-direction counter, queue untouched, no events) when the
direction is SendOnly or Inactive, else admit the transformed batch.  The
null-pointer guard on the incoming message_ptr is outside the model: packets
are values. -/
def incoming (s : TrackState) (msg : Message) : TrackState × List Nat :=
  let dir := s.mMediaDescription.direction
  if (dir == .sendOnly || dir == .inactive) && msg.type != .control then
    ({ s with badDirectionCounter := s.badDirectionCounter + 1 }, [])
  else incomingAdmit s msg

/-- `Track::receive` (track.cpp lines 90-99): pop the front packet; a Control
packet is copied into the returned variant, a data packet is moved.  The
observable result is the packet's kind and bytes. -/
def receive (s : TrackState) : Option (MsgType × List Nat) × TrackState :=
  match s.mRecvQueue.pop with
  | none => (none, s)
  | some (m, q') => (some (m.type, m.data), { s with mRecvQueue := q' })

/-- `Track::peek` (track.cpp lines 101-110): look at the front packet without
removing it.  A Control packet is copied (`to_variant(**next)`), but a data
packet is MOVED out of the message still referenced by the queue
(`to_variant(std::move(*message))`), leaving the queued front packet with an
empty payload while the queue's accounted amount and item count stay
untouched. -/
def peek (s : TrackState) : Option (MsgType × List Nat) × TrackState :=
  match s.mRecvQueue.items with
  | [] => (none, s)
  | m :: rest =>
      if m.type == .control then (some (m.type, m.data), s)
      else
        (some (m.type, m.data),
         { s with mRecvQueue := { s.mRecvQueue with items := { m with data := [] } :: rest } })

/-- Modelled from the spec: the default MTU constant of internals.hpp (not in
src/); the claims treat it symbolically, its concrete value is immaterial. -/
def DEFAULT_MTU : Nat := 1280

/-- `Track::maxMessageSize` (track.cpp lines 125-131): the configured mtu
(falling back to the default constant) minus 12 (RTP fixed header carried
inside SRTP), 8 (UDP) and 40 (IPv6), computed in size_t arithmetic
(wraparound modulo 2^64). -/
def maxMessageSize (mtu : Option Nat) : Nat :=
  (mtu.getD DEFAULT_MTU + 2 ^ 64 - (12 + 8 + 40)) % 2 ^ 64

/-- `Track::Track` (track.cpp lines 22-31): bind the initial description
(running `setDescription` on it; the member starts bound to the same mid, so
the mismatch check passes), start with an empty receive queue of the given
capacity, and install the discarding default message callback when the
negotiated direction is send-only. -/
def construct (desc : Media) (cap : Nat) : TrackState × Option TrackError :=
  let s0 : TrackState :=
    { mMediaDescription := desc
      mSdesMidExtId := none
      mRecvQueue := { items := [], amount := 0, capacity := cap }
      mIsClosed := false
      closedEventCount := 0
      badDirectionCounter := 0
      queueFullCounter := 0
      messageCallback := none
      mMediaHandler := none
      mDtlsSrtpTransport := none }
  let r := setDescription s0 desc
  match r.2 with
  | some e => (r.1, some e)
  | none =>
      if r.1.mMediaDescription.direction = .sendOnly then
        ({ r.1 with messageCallback := some .discard }, none)
      else (r.1, none)

/-- Size of the fixed RTP header, `sizeof(RtpHeader)`: 12 bytes (rtp.hpp is
not in src/; spec sections 4.3 and 4.1 fix the RTP fixed header size used in
`maxMessageSize`). -/
def RtpHeaderSize : Nat := 12

/-- Modelled from the spec: `header->extension()` reads the X bit (bit 4 of
the first header byte).  Reads past the end of the buffer — undefined in the
source — are modelled as reading 0. -/
def rtpHasExtension (d : List Nat) : Bool := d.getD 0 0 / 16 % 2 == 1

/-- Modelled from the spec: `header->getSize()`, the offset immediately after
the fixed header, where the extension block sits (spec 4.3 step 5). -/
def rtpGetSize (_d : List Nat) : Nat := RtpHeaderSize

/-- Modelled from the spec: `extHeader->profileSpecificId()`, the big-endian
16-bit profile field at the start of the extension block. -/
def extProfileAt (d : List Nat) (off : Nat) : Nat :=
  d.getD off 0 * 256 + d.getD (off + 1) 0

/-- Modelled from the spec: `extHeader->headerLength()`, the big-endian
16-bit length field (in 32-bit words) of the extension block. -/
def extLengthFieldAt (d : List Nat) (off : Nat) : Nat :=
  d.getD (off + 2) 0 * 256 + d.getD (off + 3) 0

/-- Write one byte at an index; a write past the end of the buffer —
undefined behaviour in the source — is modelled as dropped. -/
def setByte (d : List Nat) (i v : Nat) : List Nat := d.set i v

/-- Write a big-endian 16-bit field at an index. -/
def writeBE16 (d : List Nat) (i v : Nat) : List Nat :=
  setByte (setByte d i (v / 256 % 256)) (i + 1) (v % 256)

/-- Consecutive byte writes starting at an index. -/
def writeBytesAt : List Nat → Nat → List Nat → List Nat
  | d, _, [] => d
  | d, i, v :: vs => writeBytesAt (setByte d i v) (i + 1) vs

/-- The `message->insert(begin + pos, n, byte(0))` buffer operation: insert n
zero bytes at a byte position. -/
def insertZeros (d : List Nat) (pos n : Nat) : List Nat :=
  d.take pos ++ List.replicate n 0 ++ d.drop pos

/-- Modelled from the spec: `extHeader->setHeaderLength`, writing the 16-bit
length field of the extension block at byte offset off. -/
def setExtHeaderLengthAt (d : List Nat) (off v : Nat) : List Nat :=
  writeBE16 d (off + 2) v

/-- Modelled from the spec: `extHeader->setProfileSpecificId`. -/
def setExtProfileAt (d : List Nat) (off v : Nat) : List Nat :=
  writeBE16 d off v

/-- Modelled from the spec: `header->setExtension(true)` sets the X bit of
the first header byte. -/
def setExtensionFlag (d : List Nat) : List Nat :=
  setByte d 0 (d.getD 0 0 ||| 16)

/-- Modelled from the spec: `extHeader->writeOneByteHeader(offset, id, value,
size)` writes a one-byte-header element — the byte (id in the high nibble,
value length minus one in the low nibble) followed by the value bytes — at
the given byte offset into the extension block's data area (which starts 4
bytes after the block's own header). -/
def writeOneByteHeaderAt (d : List Nat) (extOff off id_ : Nat)
    (val : List Nat) : List Nat :=
  writeBytesAt d (extOff + 4 + off) ((id_ * 16 + (val.length - 1)) :: val)

/-- The bytes of a mid string, `mid.c_str()` (ASCII code points). -/
def midBytes (s : String) : List Nat := s.data.map Char.toNat

/-- `Track::tagWithMid` (track.cpp lines 242-276), translated as written.
RTCP packets fall into an empty branch; with no configured sdes:mid
extension id the function returns at once.  The source then gates the whole
tagging logic on `message->size() < sizeof(RtpHeader)` — the packet being
too short to hold the fixed header it is about to parse — so any packet of
at least `RtpHeaderSize` bytes is returned unchanged.  Inside the branch the
pointers `header` and `extHeader` are modelled as the byte offsets at which
they were acquired, applied to the buffer current at each write (the
source's in-place no-reallocation reading of the pointer arithmetic). -/
def tagWithMid (s : TrackState) (msg : Message) : Message :=
  if IsRtcp msg.data then msg
  else
    match s.mSdesMidExtId with
    | none => msg
    | some extId =>
        if msg.data.length < RtpHeaderSize then
          let mid := midBytes s.mMediaDescription.mid
          let sdesMidExtLength := 1 + mid.length
          let extOff := rtpGetSize msg.data
          if rtpHasExtension msg.data then
            if extProfileAt msg.data extOff ≠ 0xbede then msg
            else
              let extHeaderLength := extLengthFieldAt msg.data extOff
              let newExtHeaderLength :=
                (extHeaderLength + sdesMidExtLength + 3) / 4
              let d1 := insertZeros msg.data extOff
                (newExtHeaderLength - extHeaderLength)
              let d2 := setExtHeaderLengthAt d1 extOff newExtHeaderLength
              let d3 := writeOneByteHeaderAt d2 extOff extHeaderLength extId mid
              { msg with data := d3 }
          else
            let extHeaderLength := (sdesMidExtLength + 3) / 4
            let d1 := insertZeros msg.data extOff (4 + extHeaderLength)
            let d2 := setExtensionFlag d1
            let d3 := setExtProfileAt d2 extOff 0xbede
            let d4 := setExtHeaderLengthAt d3 extOff extHeaderLength
            let d5 := writeOneByteHeaderAt d4 extOff 0 extId mid
            { msg with data := d5 }
        else msg

/-- Folding the spec-modelled push over a list: the queue obtained after
attempting to push every listed packet in order. -/
def pushAll (q : BoundedByteQueue) (l : List Message) : BoundedByteQueue :=
  l.foldl (fun q m => (q.push m).1) q

/-- The available-event arguments fired while attempting to push every listed
packet in order: after each push attempt, the queue's item count. -/
def availEvents (q : BoundedByteQueue) : List Message → List Nat
  | [] => []
  | m :: rest => (q.push m).1.size :: availEvents (q.push m).1 rest

/-- Number of extension-table entries carrying the stream-identifier URI. -/
def countSdesMid (l : List (Nat × String)) : Nat :=
  l.countP (fun p => p.2 == sdesMidExtUri)

/-- A concrete track for exercising `tagWithMid`: sdes:mid extension id 1,
mid "a", no handler, no transport. -/
def c1Track : TrackState :=
  { mMediaDescription :=
      { mid := "a", direction := .sendRecv, mtype := "video"
        extMap := [(1, sdesMidExtUri)] }
    mSdesMidExtId := some 1
    mRecvQueue := { items := [], amount := 0, capacity := 100 }
    mIsClosed := false
    closedEventCount := 0
    badDirectionCounter := 0
    queueFullCounter := 0
    messageCallback := none
    mMediaHandler := none
    mDtlsSrtpTransport := none }

/-- A minimal valid RTP data packet: 12 zero bytes (version 0 header, no
CSRCs, extension bit clear), carrying no extension block. -/
def c1Packet : Message := { type := .binary, data := List.replicate 12 0, dscp := 0 }

/-- A concrete track whose receive queue holds one 3-byte data packet. -/
def c2Track : TrackState :=
  { mMediaDescription :=
      { mid := "a", direction := .sendRecv, mtype := "video"
        extMap := [(1, sdesMidExtUri)] }
    mSdesMidExtId := some 1
    mRecvQueue :=
      { items := [{ type := .binary, data := [1, 2, 3], dscp := 0 }]
        amount := 3, capacity := 16 }
    mIsClosed := false
    closedEventCount := 0
    badDirectionCounter := 0
    queueFullCounter := 0
    messageCallback := none
    mMediaHandler := none
    mDtlsSrtpTransport := none }

/-! Theorems.  Helper lemmas come first, then one theorem per claim. -/

theorem incoming_control_passes_gate (s : TrackState) (m : Message)
    (h : m.type = .control) : incoming s m = incomingAdmit s m := by
  simp [incoming, h]

theorem incomingAdmit_badDirectionCounter (s : TrackState) (m : Message) :
    (incomingAdmit s m).1.badDirectionCounter = s.badDirectionCounter := rfl

theorem outgoingSendPath_fst (s : TrackState) (m : Message) :
    (outgoingSendPath s m).1 = s := by
  unfold outgoingSendPath
  cases s.mMediaHandler with
  | none =>
      cases transportSend s m with
      | error e => rfl
      | ok r => rfl
  | some h => rfl

/-- C5: replacing the description with one whose mid differs from the track's
current mid fails with the ConfigurationMismatch error and leaves the track
state — in particular the stored description — unchanged. -/
theorem setDescription_mid_mismatch (s : TrackState) (desc : Media)
    (h : desc.mid ≠ s.mMediaDescription.mid) :
    setDescription s desc = (s, some .configurationMismatch) ∧
    description (setDescription s desc).1 = description s ∧
    mid (setDescription s desc).1 = mid s := by
  refine ⟨by simp [setDescription, h], ?_, ?_⟩ <;> simp [setDescription, h, description, mid]

theorem setDescription_mid_mismatch_witness :
    setDescription c2Track
        { mid := "b", direction := .sendRecv, mtype := "video", extMap := [] } =
      (c2Track, some .configurationMismatch) :=
  (setDescription_mid_mismatch c2Track
      { mid := "b", direction := .sendRecv, mtype := "video", extMap := [] }
      (by decide)).1

/-- C8: maxMessageSize equals the configured mtu minus the fixed overhead
12 + 8 + 40 (RTP fixed header inside SRTP, UDP header, worst-case IPv6
header) when an mtu is configured, and the default constant minus the same
overhead otherwise. -/
theorem maxMessageSize_overhead :
    (∀ m : Nat, 12 + 8 + 40 ≤ m → m < 2 ^ 64 →
      maxMessageSize (some m) = m - (12 + 8 + 40)) ∧
    maxMessageSize none = DEFAULT_MTU - (12 + 8 + 40) := by
  constructor
  · intro m h1 h2
    simp only [maxMessageSize, Option.getD_some]
    omega
  · decide

theorem maxMessageSize_overhead_witness :
    maxMessageSize (some 1500) = 1500 - (12 + 8 + 40) :=
  maxMessageSize_overhead.1 1500 (by decide) (by decide)

/-- C1: evaluation at the failing input.  The claim says tagging a Data
packet with no existing extension block sets the extension flag and installs
a 0xBEDE block carrying the mid, but the source gates the whole tagging
logic on `message->size() < sizeof(RtpHeader)` (track.cpp line 250) — the
check is inverted, so every packet large enough to hold the fixed RTP header
is returned byte-for-byte unchanged: here a minimal 12-byte Data packet with
a configured extension id 1 and mid "a" comes back without an extension
flag and without any extension block. -/
theorem tagWithMid_inverted_guard_failing_input :
    c1Packet.type = .binary ∧
    IsRtcp c1Packet.data = false ∧
    c1Track.mSdesMidExtId = some 1 ∧
    rtpHasExtension c1Packet.data = false ∧
    tagWithMid c1Track c1Packet = c1Packet ∧
    rtpHasExtension (tagWithMid c1Track c1Packet).data = false ∧
    (tagWithMid c1Track c1Packet).data.length = c1Packet.data.length := by
  decide

/-- C2: evaluation at the failing input.  peek() leaves the accounted amount
and item count untouched, but for a Data packet it moves the payload out of
the message still referenced at the queue front
(`to_variant(std::move(*message))`, track.cpp line 107), so the subsequent
receive() no longer returns the content peek() returned: with a queued
3-byte Data packet, peek yields bytes [1,2,3] while the following receive
yields an empty payload. -/
theorem peek_moves_out_front_payload :
    (peek c2Track).1 = some (.binary, [1, 2, 3]) ∧
    (peek c2Track).2.mRecvQueue.amount = c2Track.mRecvQueue.amount ∧
    (peek c2Track).2.mRecvQueue.size = c2Track.mRecvQueue.size ∧
    (receive (peek c2Track).2).1 = some (.binary, []) ∧
    (receive (peek c2Track).2).1 ≠ (peek c2Track).1 := by
  decide

/-- C9: tagWithMid leaves the packet byte-for-byte unchanged when the packet
is structurally RTCP, when no sdes:mid extension id is configured for the
track, and when the packet's existing extension block carries a profile id
other than 0xBEDE. -/
theorem tagWithMid_noop_cases :
    (∀ (s : TrackState) (m : Message), IsRtcp m.data = true →
      tagWithMid s m = m) ∧
    (∀ (s : TrackState) (m : Message), s.mSdesMidExtId = none →
      tagWithMid s m = m) ∧
    (∀ (s : TrackState) (m : Message), rtpHasExtension m.data = true →
      extProfileAt m.data (rtpGetSize m.data) ≠ 0xbede →
      tagWithMid s m = m) := by
  refine ⟨?_, ?_, ?_⟩
  · intro s m h
    simp [tagWithMid, h]
  · intro s m h
    simp [tagWithMid, h]
  · intro s m h1 h2
    unfold tagWithMid
    cases hr : IsRtcp m.data with
    | true => rfl
    | false =>
        simp only [Bool.false_eq_true, if_false]
        cases he : s.mSdesMidExtId with
        | none => rfl
        | some extId =>
            by_cases hlen : m.data.length < RtpHeaderSize
            · simp [hlen, h1, h2]
            · simp [hlen]

theorem tagWithMid_noop_cases_witness :
    tagWithMid c1Track { type := .control, data := [128, 72, 0, 0, 0, 0, 0, 0], dscp := 0 } =
      { type := .control, data := [128, 72, 0, 0, 0, 0, 0, 0], dscp := 0 } ∧
    tagWithMid { c1Track with mSdesMidExtId := none } c1Packet = c1Packet ∧
    tagWithMid c1Track
        { type := .binary
          data := [16, 0, 0, 0, 0, 0, 0, 0, 0, 0, 0, 0, 17, 34, 0, 0], dscp := 0 } =
      { type := .binary
        data := [16, 0, 0, 0, 0, 0, 0, 0, 0, 0, 0, 0, 17, 34, 0, 0], dscp := 0 } :=
  ⟨tagWithMid_noop_cases.1 c1Track _ (by decide),
   tagWithMid_noop_cases.2.1 { c1Track with mSdesMidExtId := none } c1Packet rfl,
   tagWithMid_noop_cases.2.2 c1Track _ (by decide) (by decide)⟩

/-- C10: a track constructed with a SendOnly initial description succeeds,
installs the default discarding message callback — which produces no visible
delivery for any message — and still lets Control packets through the
incoming direction gate. -/
theorem construct_sendonly_discards (desc : Media) (cap : Nat)
    (h : desc.direction = .sendOnly) :
    (construct desc cap).2 = none ∧
    (construct desc cap).1.messageCallback = some .discard ∧
    (∀ m : Message, runMessageCallback .discard m = []) ∧
    (∀ m : Message, m.type = .control →
      incoming (construct desc cap).1 m = incomingAdmit (construct desc cap).1 m) := by
  have hdesc : (construct desc cap).2 = none ∧
      (construct desc cap).1.messageCallback = some .discard := by
    unfold construct
    simp only [setDescription, ne_eq, not_true_eq_false, if_neg, ite_false]
    cases hf : desc.findExtId sdesMidExtUri with
    | none => simp [hf, Media.addExtMap, h]
    | some i => simp [hf, h]
  exact ⟨hdesc.1, hdesc.2, fun m => rfl,
    fun m hm => incoming_control_passes_gate _ m hm⟩

theorem construct_sendonly_discards_witness :
    (construct { mid := "a", direction := .sendOnly, mtype := "audio", extMap := [] }
        100).1.messageCallback = some .discard :=
  (construct_sendonly_discards
      { mid := "a", direction := .sendOnly, mtype := "audio", extMap := [] }
      100 rfl).2.1

/-- C3: direction gating matches the table.  For a Data (non-Control) packet,
incoming drops it — bumping only the bad-direction counter, queue untouched,
no events — exactly when the direction is SendOnly or Inactive; outgoing
drops it and returns false exactly when the direction is RecvOnly or
Inactive; a Control packet is always permitted in both flow directions. -/
theorem direction_gate_matches_table :
    (∀ (s : TrackState) (m : Message), m.type ≠ .control →
      ((s.mMediaDescription.direction = .sendOnly ∨
          s.mMediaDescription.direction = .inactive) ↔
        incoming s m =
          ({ s with badDirectionCounter := s.badDirectionCounter + 1 }, []))) ∧
    (∀ (s : TrackState) (m : Message), s.mIsClosed = false →
      m.type ≠ .control → IsRtcp m.data = false →
      ((s.mMediaDescription.direction = .recvOnly ∨
          s.mMediaDescription.direction = .inactive) ↔
        outgoing s m =
          ({ s with badDirectionCounter := s.badDirectionCounter + 1 },
            .ok false))) ∧
    (∀ (s : TrackState) (m : Message), m.type = .control →
      incoming s m = incomingAdmit s m) ∧
    (∀ (s : TrackState) (m : Message), m.type = .control → s.mIsClosed = false →
      outgoing s m = outgoingSendPath s m) := by
  refine ⟨?_, ?_, fun s m hm => incoming_control_passes_gate s m hm, ?_⟩
  · intro s m hm
    constructor
    · intro hd
      rcases hd with hd | hd <;> simp [incoming, hd, hm]
    · intro heq
      by_contra hd
      push_neg at hd
      have hpass : incoming s m = incomingAdmit s m := by
        cases hdir : s.mMediaDescription.direction <;>
          simp_all [incoming]
      rw [hpass] at heq
      have := congrArg (fun r => r.1.badDirectionCounter) heq
      simp only [incomingAdmit_badDirectionCounter] at this
      omega
  · intro s m hcl hm hr
    have hkeep : (if s.mMediaHandler.isNone && IsRtcp m.data then
        { m with type := MsgType.control } else m) = m := by
      simp [hr]
    constructor
    · intro hd
      rcases hd with hd | hd <;>
        simp [outgoing, hcl, hd, hm, hkeep, hr]
    · intro heq
      by_contra hd
      push_neg at hd
      have hpass : outgoing s m = outgoingSendPath s m := by
        unfold outgoing
        rw [if_neg (by simp [hcl]), hkeep]
        cases hdir : s.mMediaDescription.direction <;> simp_all
      rw [hpass] at heq
      have := congrArg (fun r => r.1.badDirectionCounter) heq
      simp only [outgoingSendPath_fst] at this
      omega
  · intro s m hm hcl
    obtain ⟨t, d, p⟩ := m
    cases hm
    unfold outgoing
    rw [if_neg (by simp [hcl])]
    simp

theorem direction_gate_matches_table_witness :
    incoming { c1Track with
        mMediaDescription := { c1Track.mMediaDescription with direction := .sendOnly } }
      { type := .binary, data := [5], dscp := 0 } =
    ({ { c1Track with
          mMediaDescription :=
            { c1Track.mMediaDescription with direction := .sendOnly } } with
        badDirectionCounter := 0 + 1 }, []) :=
  (direction_gate_matches_table.1
      { c1Track with
        mMediaDescription := { c1Track.mMediaDescription with direction := .sendOnly } }
      { type := .binary, data := [5], dscp := 0 } (by decide)).mp (Or.inl rfl)

theorem close_isClosed (s : TrackState) : (close s).mIsClosed = true := by
  by_cases h : s.mIsClosed <;> simp [close, h]

theorem close_fixpoint (s : TrackState) : close (close s) = close s := by
  obtain ⟨a, b, c, d, e, f, g, h, i, j⟩ := s
  by_cases hd : d <;> simp [close, hd]

theorem close_iterate (s : TrackState) (k : Nat) :
    close^[k] (close s) = close s := by
  induction k with
  | zero => rfl
  | succ n ih => rw [Function.iterate_succ_apply', ih, close_fixpoint]

/-- C4: close is idempotent — iterating close any positive number of times
from an open track fires the closed event exactly once, a second close is a
no-op on the state, and after any positive number of closes every outgoing
call fails with the TrackClosed error. -/
theorem close_idempotent_and_sends_fail :
    (∀ (s : TrackState) (n : Nat), s.mIsClosed = false → 1 ≤ n →
      (close^[n] s).closedEventCount = s.closedEventCount + 1) ∧
    (∀ s : TrackState, close (close s) = close s) ∧
    (∀ (s : TrackState) (m : Message) (n : Nat), 1 ≤ n →
      (outgoing (close^[n] s) m).2 = .error .trackClosed) := by
  have hiter : ∀ (s : TrackState) (n : Nat), 1 ≤ n → close^[n] s = close s := by
    intro s n hn
    obtain ⟨k, rfl⟩ : ∃ k, n = k + 1 := ⟨n - 1, by omega⟩
    rw [Function.iterate_succ_apply, close_iterate]
  refine ⟨?_, close_fixpoint, ?_⟩
  · intro s n hopen hn
    rw [hiter s n hn]
    simp [close, hopen]
  · intro s m n hn
    rw [hiter s n hn]
    simp [outgoing, close_isClosed]

theorem close_idempotent_and_sends_fail_witness :
    (close^[2] c1Track).closedEventCount = c1Track.closedEventCount + 1 ∧
    (outgoing (close^[2] c1Track) c1Packet).2 = .error .trackClosed :=
  ⟨close_idempotent_and_sends_fail.1 c1Track 2 rfl (by decide),
   close_idempotent_and_sends_fail.2.2 c1Track c1Packet 2 (by decide)⟩

/-- C6: the admission loop of incoming stops at the first failure.  In
general there is a cut point k: the first k packets of the batch are pushed
(each firing the available event with the queue's item count after the
push), no attempt is made on any later packet, and the full-queue counter is
bumped exactly when the batch was cut short — at a cut point where the queue
reports full.  In particular, with capacity exactly the first item's weight,
a batch admits the first item, drops the second with one counter bump and a
single available(1) event, and a third item is never attempted: the result
of the three-item batch coincides with that of the two-item batch. -/
theorem incoming_batch_admission :
    (∀ (msgs : List Message) (q : BoundedByteQueue), ∃ k,
      k ≤ msgs.length ∧
      admitBatch q msgs =
        (pushAll q (msgs.take k), (if k < msgs.length then 1 else 0),
          availEvents q (msgs.take k)) ∧
      (∀ i < k, (pushAll q (msgs.take i)).full = false) ∧
      (k < msgs.length → (pushAll q (msgs.take k)).full = true)) ∧
    (∀ (d1 d2 d3 : List Nat), 0 < d1.length →
      admitBatch { items := [], amount := 0, capacity := d1.length }
          [⟨.binary, d1, 0⟩, ⟨.binary, d2, 0⟩, ⟨.binary, d3, 0⟩] =
        ({ items := [⟨.binary, d1, 0⟩], amount := d1.length,
            capacity := d1.length }, 1, [1]) ∧
      admitBatch { items := [], amount := 0, capacity := d1.length }
          [⟨.binary, d1, 0⟩, ⟨.binary, d2, 0⟩, ⟨.binary, d3, 0⟩] =
        admitBatch { items := [], amount := 0, capacity := d1.length }
          [⟨.binary, d1, 0⟩, ⟨.binary, d2, 0⟩]) := by
  constructor
  · intro msgs
    induction msgs with
    | nil =>
        intro q
        exact ⟨0, Nat.le_refl 0, rfl, fun i hi => absurd hi (Nat.not_lt_zero i),
          fun h => absurd h (Nat.not_lt_zero 0)⟩
    | cons m rest ih =>
        intro q
        by_cases hq : q.full
        · refine ⟨0, Nat.zero_le _, ?_, fun i hi => absurd hi (Nat.not_lt_zero i),
            fun _ => hq⟩
          simp [admitBatch, hq, pushAll, availEvents]
        · obtain ⟨k, hk, heq, hfree, hfull⟩ := ih ((q.push m).1)
          refine ⟨k + 1, by simpa using hk, ?_, ?_, ?_⟩
          · simp only [admitBatch, hq, Bool.false_eq_true, if_false, heq,
              List.take_succ_cons, List.length_cons]
            refine Prod.ext rfl (Prod.ext ?_ rfl)
            simp [Nat.succ_lt_succ_iff]
          · intro i hi
            cases i with
            | zero => simpa [pushAll] using hq
            | succ j =>
                have := hfree j (by omega)
                simpa [pushAll, List.take_succ_cons] using this
          · intro hlt
            have := hfull (by simpa [Nat.succ_lt_succ_iff] using hlt)
            simpa [pushAll, List.take_succ_cons] using this
  · intro d1 d2 d3 h
    have hfull0 : BoundedByteQueue.full ⟨[], 0, d1.length⟩ = false := by
      unfold BoundedByteQueue.full
      simp only [decide_eq_false_iff_not]
      omega
    have hpush : BoundedByteQueue.push ⟨[], 0, d1.length⟩ ⟨.binary, d1, 0⟩ =
        (⟨[⟨.binary, d1, 0⟩], d1.length, d1.length⟩, true) := by
      simp [BoundedByteQueue.push, weight]
    have hfull1 :
        BoundedByteQueue.full ⟨[⟨.binary, d1, 0⟩], d1.length, d1.length⟩ = true := by
      simp [BoundedByteQueue.full]
    constructor
    · simp [admitBatch, hfull0, hpush, hfull1, BoundedByteQueue.size]
    · simp [admitBatch, hfull0, hpush, hfull1]

theorem incoming_batch_admission_witness :
    admitBatch { items := [], amount := 0, capacity := 1 }
        [⟨.binary, [7], 0⟩, ⟨.binary, [8], 0⟩, ⟨.binary, [9], 0⟩] =
      ({ items := [⟨.binary, [7], 0⟩], amount := 1, capacity := 1 }, 1, [1]) ∧
    admitBatch { items := [], amount := 0, capacity := 1 }
        [⟨.binary, [7], 0⟩, ⟨.binary, [8], 0⟩, ⟨.binary, [9], 0⟩] =
      admitBatch { items := [], amount := 0, capacity := 1 }
        [⟨.binary, [7], 0⟩, ⟨.binary, [8], 0⟩] := by
  have h := incoming_batch_admission.2 [7] [8] [9] (by decide)
  exact ⟨h.1, h.2⟩

theorem find?_first_of_sorted {p : Nat → Bool} :
    ∀ {l : List Nat}, l.Sorted (· < ·) → ∀ {a : Nat}, l.find? p = some a →
      ∀ b ∈ l, b < a → p b = false := by
  intro l
  induction l with
  | nil =>
      intro _ a ha
      simp at ha
  | cons x xs ih =>
      intro hs a ha b hb hba
      rw [List.sorted_cons] at hs
      by_cases hx : p x
      · rw [List.find?_cons_of_pos _ hx] at ha
        injection ha with ha
        subst ha
        rcases List.mem_cons.mp hb with rfl | hbxs
        · exact absurd hba (lt_irrefl b)
        · exact absurd hba (not_lt.mpr (le_of_lt (hs.1 b hbxs)))
      · rw [List.find?_cons_of_neg _ hx] at ha
        rcases List.mem_cons.mp hb with rfl | hbxs
        · exact Bool.eq_false_iff.mpr hx
        · exact ih hs.2 ha b hbxs hba

/-- C7: a successful setDescription — including the one run by the
constructor — leaves the stored description's extension table with exactly
one stream-identifier mapping: an id already mapped to the sdes:mid URI is
reused and the description stored unchanged, otherwise the lowest unused id
in [1,14] is allocated and the mapping appended in the same update that
stores the description. -/
theorem setDescription_sdes_mid_mapping
    (s : TrackState) (desc : Media)
    (hmid : desc.mid = s.mMediaDescription.mid)
    (hcount : countSdesMid desc.extMap ≤ 1)
    (hfree : ∃ k ∈ extIds, desc.extIdUsed k = false) :
    (setDescription s desc).2 = none ∧
    countSdesMid (setDescription s desc).1.mMediaDescription.extMap = 1 ∧
    (∀ i, desc.findExtId sdesMidExtUri = some i →
      (setDescription s desc).1.mMediaDescription = desc ∧
      (setDescription s desc).1.mSdesMidExtId = some i) ∧
    (desc.findExtId sdesMidExtUri = none →
      (setDescription s desc).1.mSdesMidExtId = some desc.nextExtId ∧
      (setDescription s desc).1.mMediaDescription =
        desc.addExtMap desc.nextExtId sdesMidExtUri ∧
      desc.nextExtId ∈ extIds ∧
      desc.extIdUsed desc.nextExtId = false ∧
      (∀ j ∈ extIds, j < desc.nextExtId → desc.extIdUsed j = true)) ∧
    (∀ cap, countSdesMid (construct desc cap).1.mMediaDescription.extMap = 1) := by
  have hne : ¬ desc.mid ≠ s.mMediaDescription.mid := by simp [hmid]
  cases hf : desc.findExtId sdesMidExtUri with
  | some i =>
      obtain ⟨pr, hpr, hpr1⟩ := Option.map_eq_some'.mp hf
      have hmem := List.mem_of_find?_eq_some hpr
      have hq := List.find?_some hpr
      have hone : countSdesMid desc.extMap = 1 := by
        have hpos : 0 < countSdesMid desc.extMap := by
          unfold countSdesMid
          rw [List.countP_pos_iff]
          exact ⟨pr, hmem, hq⟩
        omega
      refine ⟨by simp [setDescription, hne, hf], ?_, ?_, ?_, ?_⟩
      · simpa [setDescription, hne, hf] using hone
      · intro i' hi'
        injection hi' with hi'
        subst hi'
        exact ⟨by simp [setDescription, hne, hf], by simp [setDescription, hne, hf]⟩
      · intro hcontra
        simp at hcontra
      · intro cap
        unfold construct
        simp only [setDescription, ne_eq, not_true_eq_false, if_neg, ite_false, hf]
        split <;> simpa using hone
  | none =>
      have hnone : ∀ pr ∈ desc.extMap, ¬(pr.2 == sdesMidExtUri) = true :=
        List.find?_eq_none.mp (Option.map_eq_none'.mp hf)
      have hzero : countSdesMid desc.extMap = 0 :=
        List.countP_eq_zero.mpr hnone
      have hfind : extIds.find? (fun k => ! desc.extIdUsed k) ≠ none := by
        intro hn
        rw [List.find?_eq_none] at hn
        obtain ⟨k, hk, hku⟩ := hfree
        exact hn k hk (by simp [hku])
      obtain ⟨a, ha⟩ := Option.ne_none_iff_exists'.mp hfind
      have hmema := List.mem_of_find?_eq_some ha
      have hpa := List.find?_some ha
      have haused : desc.extIdUsed a = false := by simpa using hpa
      have hmin : ∀ j ∈ extIds, j < a → desc.extIdUsed j = true := by
        intro j hj hja
        have hsorted : extIds.Sorted (· < ·) := by decide
        have := find?_first_of_sorted hsorted ha j hj hja
        simpa using this
      have hnext : desc.nextExtId = a := by simp [Media.nextExtId, ha]
      have hcnt1 : countSdesMid (desc.addExtMap desc.nextExtId sdesMidExtUri).extMap = 1 := by
        unfold countSdesMid Media.addExtMap
        rw [List.countP_append]
        have hz : desc.extMap.countP (fun p => p.2 == sdesMidExtUri) = 0 := hzero
        rw [hz]
        simp
      refine ⟨by simp [setDescription, hne, hf], ?_, ?_, ?_, ?_⟩
      · simpa [setDescription, hne, hf] using hcnt1
      · intro i' hi'
        simp at hi'
      · intro _
        refine ⟨by simp [setDescription, hne, hf], by simp [setDescription, hne, hf],
          hnext ▸ hmema, hnext ▸ haused, ?_⟩
        intro j hj hja
        exact hmin j hj (hnext ▸ hja)
      · intro cap
        unfold construct
        simp only [setDescription, ne_eq, not_true_eq_false, if_neg, ite_false, hf]
        split <;> simpa using hcnt1

theorem setDescription_sdes_mid_mapping_witness :
    countSdesMid
        (setDescription c1Track
            { mid := "a", direction := .sendRecv, mtype := "video"
              extMap := [(1, "other")] }).1.mMediaDescription.extMap = 1 :=
  (setDescription_sdes_mid_mapping c1Track
      { mid := "a", direction := .sendRecv, mtype := "video"
        extMap := [(1, "other")] }
      rfl (by decide) ⟨2, by decide, by decide⟩).2.1

end RtcImpl
